import Mathlib

/-!
Verification of the run-directory resolver, the evaluator invoker and the
pose-file codec of the KISS-ICP-Odometry-on-KITTI-dataset repository
(src/generate_odometry.py and src/visuzlize.py), over a shallow embedding
of the filesystem operations the scripts perform.
-/

namespace KissIcp

/-! ## Filesystem model

The resolver find_latest_run_dir (generate_odometry.py, lines 71-79) inspects a
single directory OUT_ROOT: it checks whether a child named "latest" exists
(Path.exists, which follows symbolic links and treats a dangling link or a
symlink loop as non-existent), resolves it with Path.resolve(strict=False)
(which follows symbolic links as far as possible), and otherwise scans the
immediate children, keeping those for which Path.is_dir holds (is_dir also
follows links) and taking the maximum by st_mtime (os.stat follows links;
Python max keeps the first element attaining the maximum, replacing the
current best only on a strictly greater key).

The model: the root directory is a list of named entries, in the order
Path.iterdir enumerates them.  An entry is an ordinary directory with a
modification time, an ordinary file with a modification time, or a symbolic
link whose target names another entry of the same directory.  Link chasing
carries the OS limit of 40 link traversals (MAXSYMLINKS): os.stat fails with
ELOOP beyond it, and pathlib's exists/is_dir swallow ELOOP and report False.
-/

inductive EntryKind where
  | dir (mtime : Nat)
  | file (mtime : Nat)
  | symlink (target : String)
  deriving DecidableEq, Repr

structure Entry where
  name : String
  kind : EntryKind
  deriving DecidableEq, Repr

/-- Directory lookup: the kind of the child with the given name, if any. -/
def lookup (entries : List Entry) (n : String) : Option EntryKind :=
  match entries with
  | [] => none
  | e :: rest => if e.name = n then some e.kind else lookup rest n

/-- os.stat with symlink following and fuel: none models ENOENT (no such
entry, or a dangling link) as well as ELOOP (fuel exhausted on a cycle). -/
def statFollow (entries : List Entry) : Nat → String → Option EntryKind
  | 0, _ => none
  | fuel + 1, n =>
    match lookup entries n with
    | none => none
    | some (.symlink t) => statFollow entries fuel t
    | some k => some k

/-- Path.exists: stats the path following links; dangling links and link
cycles (ELOOP) report False. -/
def pathExists (entries : List Entry) (n : String) : Bool :=
  (statFollow entries 40 n).isSome

/-- Path.is_dir: follows links; a link that resolves to a directory counts. -/
def isDir (entries : List Entry) (n : String) : Bool :=
  match statFollow entries 40 n with
  | some (.dir _) => true
  | _ => false

/-- st_mtime of the stat result (links followed).  The default 0 is never
reached where the scripts call it (they stat only entries known to exist). -/
def mtimeOf (entries : List Entry) (n : String) : Nat :=
  match statFollow entries 40 n with
  | some (.dir m) => m
  | some (.file m) => m
  | _ => 0

/-- Path.resolve(strict=False): follow symbolic links as far as possible and
return the final name; no error on a dangling target or a cycle. -/
def resolvePath (entries : List Entry) : Nat → String → String
  | 0, n => n
  | fuel + 1, n =>
    match lookup entries n with
    | some (.symlink t) => resolvePath entries fuel t
    | _ => n

/-- Python max(dirs, key=mtime): fold keeping the current best, replacing it
only when a later element has a strictly greater key, so the first element
attaining the maximum wins. -/
def maxByMtime (entries : List Entry) : Entry → List Entry → Entry
  | best, [] => best
  | best, e :: rest =>
    if mtimeOf entries best.name < mtimeOf entries e.name then
      maxByMtime entries e rest
    else
      maxByMtime entries best rest

/-- Outcome of find_latest_run_dir: a path, or the FileNotFoundError raised
as "No run directories found". -/
inductive RunDirResult where
  | found (path : String)
  | noRunDirectories
  deriving DecidableEq, Repr

/-- find_latest_run_dir (generate_odometry.py, lines 71-79): if the child
"latest" exists (links followed), return its full resolution; otherwise keep
the children that are directories and return the one with the greatest
modification time (first wins on ties); fail if there are none. -/
def find_latest_run_dir (entries : List Entry) : RunDirResult :=
  if pathExists entries "latest" then
    .found (resolvePath entries 40 "latest")
  else
    match entries.filter (fun c => isDir entries c.name) with
    | [] => .noRunDirectories
    | d :: ds => .found (maxByMtime entries d ds).name

/-! ## Basic lemmas about link chasing -/

theorem statFollow_of_lookup_none {entries : List Entry} {n : String}
    (h : lookup entries n = none) (fuel : Nat) :
    statFollow entries fuel n = none := by
  cases fuel with
  | zero => rfl
  | succ f => simp [statFollow, h]

theorem statFollow_of_lookup_dir {entries : List Entry} {n : String} {m : Nat}
    (h : lookup entries n = some (.dir m)) {fuel : Nat} (hf : fuel ≠ 0) :
    statFollow entries fuel n = some (.dir m) := by
  cases fuel with
  | zero => exact absurd rfl hf
  | succ f => simp [statFollow, h]

theorem statFollow_of_lookup_file {entries : List Entry} {n : String} {m : Nat}
    (h : lookup entries n = some (.file m)) {fuel : Nat} (hf : fuel ≠ 0) :
    statFollow entries fuel n = some (.file m) := by
  cases fuel with
  | zero => exact absurd rfl hf
  | succ f => simp [statFollow, h]

theorem statFollow_of_lookup_symlink {entries : List Entry} {n t : String}
    (h : lookup entries n = some (.symlink t)) (fuel : Nat) :
    statFollow entries (fuel + 1) n = statFollow entries fuel t := by
  simp [statFollow, h]

theorem resolvePath_of_not_symlink {entries : List Entry} {n : String}
    (h : ∀ t, lookup entries n ≠ some (.symlink t)) (fuel : Nat) :
    resolvePath entries fuel n = n := by
  cases fuel with
  | zero => rfl
  | succ f =>
    unfold resolvePath
    cases hl : lookup entries n with
    | none => rfl
    | some k =>
      cases k with
      | dir m => rfl
      | file m => rfl
      | symlink t => exact absurd hl (h t)

theorem resolvePath_of_lookup_symlink {entries : List Entry} {n t : String}
    (h : lookup entries n = some (.symlink t)) (fuel : Nat) :
    resolvePath entries (fuel + 1) n = resolvePath entries fuel t := by
  simp [resolvePath, h]

/-! ## Resolver theorems -/

/-- C1: when the root has a child named latest that is a symbolic link to a
subdirectory x (or is itself an ordinary directory, the case x = "latest"),
find_latest_run_dir returns x, whatever the other entries of the root and
their modification times are. -/
theorem find_latest_returns_latest_target (entries : List Entry) (x : String) (m : Nat)
    (h : lookup entries "latest" = some (.symlink x) ∧ lookup entries x = some (.dir m)
       ∨ x = "latest" ∧ lookup entries "latest" = some (.dir m)) :
    find_latest_run_dir entries = .found x := by
  rcases h with ⟨h1, h2⟩ | ⟨hx, h2⟩
  · have hs : statFollow entries 40 "latest" = some (.dir m) := by
      rw [show (40 : Nat) = 39 + 1 from rfl, statFollow_of_lookup_symlink h1]
      exact statFollow_of_lookup_dir h2 (by norm_num)
    have hr : resolvePath entries 40 "latest" = x := by
      rw [show (40 : Nat) = 39 + 1 from rfl, resolvePath_of_lookup_symlink h1]
      exact resolvePath_of_not_symlink (fun t ht => by simp [h2] at ht) 39
    simp [find_latest_run_dir, pathExists, hs, hr]
  · subst hx
    have hs : statFollow entries 40 "latest" = some (.dir m) :=
      statFollow_of_lookup_dir h2 (by norm_num)
    have hr : resolvePath entries 40 "latest" = "latest" :=
      resolvePath_of_not_symlink (fun t ht => by simp [h2] at ht) 40
    simp [find_latest_run_dir, pathExists, hs, hr]

/-- C1 witness: a root where latest is a link to run1 while run2 has a far
greater modification time; the resolver still returns run1. -/
theorem find_latest_returns_latest_target_witness :
    (lookup [⟨"latest", .symlink "run1"⟩, ⟨"run1", .dir 10⟩, ⟨"run2", .dir 999⟩] "latest"
          = some (.symlink "run1") ∧
        lookup [⟨"latest", .symlink "run1"⟩, ⟨"run1", .dir 10⟩, ⟨"run2", .dir 999⟩] "run1"
          = some (.dir 10)
      ∨ "run1" = "latest" ∧
        lookup [⟨"latest", .symlink "run1"⟩, ⟨"run1", .dir 10⟩, ⟨"run2", .dir 999⟩] "latest"
          = some (.dir 10)) ∧
      find_latest_run_dir [⟨"latest", .symlink "run1"⟩, ⟨"run1", .dir 10⟩, ⟨"run2", .dir 999⟩]
        = .found "run1" :=
  ⟨Or.inl ⟨by decide, by decide⟩,
    find_latest_returns_latest_target _ "run1" 10 (Or.inl ⟨by decide, by decide⟩)⟩

/-- C4: with no child named latest and no subdirectory among the children,
find_latest_run_dir fails with the no-run-directories error. -/
theorem find_latest_empty_root_fails (entries : List Entry)
    (h1 : lookup entries "latest" = none)
    (h2 : entries.filter (fun c => isDir entries c.name) = []) :
    find_latest_run_dir entries = .noRunDirectories := by
  have hs := statFollow_of_lookup_none h1 40
  simp [find_latest_run_dir, pathExists, hs, h2]

/-- C4 witness: the empty root. -/
theorem find_latest_empty_root_fails_witness :
    (lookup ([] : List Entry) "latest" = none ∧
        ([] : List Entry).filter (fun c => isDir [] c.name) = []) ∧
      find_latest_run_dir [] = .noRunDirectories :=
  ⟨⟨by decide, by decide⟩, find_latest_empty_root_fails [] (by decide) (by decide)⟩

/-- C9: the resolver performs no type check on the latest entry: when the
child named latest is a regular file, find_latest_run_dir returns its
resolved path (the file itself) instead of scanning the subdirectories. -/
theorem find_latest_no_type_check (entries : List Entry) (m : Nat)
    (h : lookup entries "latest" = some (.file m)) :
    find_latest_run_dir entries = .found "latest" := by
  have hs : statFollow entries 40 "latest" = some (.file m) :=
    statFollow_of_lookup_file h (by norm_num)
  have hr : resolvePath entries 40 "latest" = "latest" :=
    resolvePath_of_not_symlink (fun t ht => by simp [h] at ht) 40
  simp [find_latest_run_dir, pathExists, hs, hr]

/-- C9 witness: latest is a regular file next to a genuine run directory; the
file's path is returned, not the directory. -/
theorem find_latest_no_type_check_witness :
    lookup [⟨"latest", .file 3⟩, ⟨"run9", .dir 77⟩] "latest" = some (.file 3) ∧
      find_latest_run_dir [⟨"latest", .file 3⟩, ⟨"run9", .dir 77⟩] = .found "latest" :=
  ⟨by decide, find_latest_no_type_check _ 3 (by decide)⟩

/-- The fold modelling Python max returns an element of the candidate list
whose key is maximal, and every candidate strictly before it in enumeration
order has a strictly smaller key: max keeps the first maximum. -/
theorem maxByMtime_spec (entries : List Entry) (ds : List Entry) :
    ∀ best : Entry,
      ∃ l₁ l₂,
        best :: ds = l₁ ++ maxByMtime entries best ds :: l₂ ∧
        (∀ x ∈ l₁,
          mtimeOf entries x.name < mtimeOf entries (maxByMtime entries best ds).name) ∧
        (∀ x ∈ best :: ds,
          mtimeOf entries x.name ≤ mtimeOf entries (maxByMtime entries best ds).name) := by
  induction ds with
  | nil =>
    intro best
    exact ⟨[], [], rfl, by simp, by simp [maxByMtime]⟩
  | cons e rest ih =>
    intro best
    by_cases h : mtimeOf entries best.name < mtimeOf entries e.name
    · obtain ⟨l₁, l₂, heq, hst, hle⟩ := ih e
      have hmax : maxByMtime entries best (e :: rest) = maxByMtime entries e rest := by
        simp [maxByMtime, h]
      have hbr : mtimeOf entries best.name
          < mtimeOf entries (maxByMtime entries e rest).name :=
        lt_of_lt_of_le h (hle e (List.mem_cons_self e rest))
      refine ⟨best :: l₁, l₂, ?_, ?_, ?_⟩
      · rw [hmax, List.cons_append, ← heq]
      · intro x hx
        rw [hmax]
        rcases List.mem_cons.mp hx with rfl | hx'
        · exact hbr
        · exact hst x hx'
      · intro x hx
        rw [hmax]
        rcases List.mem_cons.mp hx with rfl | hx'
        · exact le_of_lt hbr
        · exact hle x hx'
    · obtain ⟨l₁, l₂, heq, hst, hle⟩ := ih best
      have hmax : maxByMtime entries best (e :: rest) = maxByMtime entries best rest := by
        simp [maxByMtime, h]
      have hee : mtimeOf entries e.name ≤ mtimeOf entries best.name := le_of_not_lt h
      cases l₁ with
      | nil =>
        simp only [List.nil_append] at heq
        injection heq with hb hrest
        refine ⟨[], e :: rest, ?_, by simp, ?_⟩
        · rw [hmax, ← hb, List.nil_append]
        · intro x hx
          rw [hmax, ← hb]
          rcases List.mem_cons.mp hx with rfl | hx'
          · exact le_refl _
          · rcases List.mem_cons.mp hx' with rfl | hx''
            · exact hee
            · have hb2 := hle x (List.mem_cons_of_mem best hx'')
              rw [← hb] at hb2
              exact hb2
      | cons a t =>
        rw [List.cons_append] at heq
        injection heq with hb hrest
        have hba : best.name = a.name := by rw [hb]
        have hbm : mtimeOf entries best.name
            < mtimeOf entries (maxByMtime entries best rest).name := by
          rw [hba]
          exact hst a (List.mem_cons_self a t)
        refine ⟨best :: e :: t, l₂, ?_, ?_, ?_⟩
        · rw [hmax, List.cons_append, List.cons_append, ← hrest]
        · intro x hx
          rw [hmax]
          rcases List.mem_cons.mp hx with hx1 | hx'
          · rw [hx1]
            exact hbm
          · rcases List.mem_cons.mp hx' with hx2 | hx''
            · rw [hx2]
              exact lt_of_le_of_lt hee hbm
            · exact hst x (List.mem_cons_of_mem a hx'')
        · intro x hx
          rw [hmax]
          rcases List.mem_cons.mp hx with hx1 | hx'
          · rw [hx1]
            exact hle best (List.mem_cons_self best rest)
          · rcases List.mem_cons.mp hx' with hx2 | hx''
            · rw [hx2]
              exact le_trans hee (hle best (List.mem_cons_self best rest))
            · exact hle x (List.mem_cons_of_mem best hx'')

/-- C2 counterexample: root with subdirectories a (mtime 100), b (mtime 300)
and c (mtime 300) in enumeration order; the resolver returns b, the first
subdirectory attaining the maximal time, not the lexicographically greatest
name c that the claim demands. -/
theorem find_latest_tie_goes_to_first :
    find_latest_run_dir [⟨"a", .dir 100⟩, ⟨"b", .dir 300⟩, ⟨"c", .dir 300⟩]
        = .found "b" ∧
      RunDirResult.found "b" ≠ RunDirResult.found "c" :=
  ⟨by decide, by decide⟩

/-- C2 amended: with no latest entry and a nonempty set of subdirectories,
the resolver returns a subdirectory of maximal modification time, namely the
first one in enumeration order attaining the maximum (every subdirectory
enumerated before it has a strictly smaller time). -/
theorem find_latest_scan_first_max (entries : List Entry)
    (h1 : lookup entries "latest" = none)
    (h2 : entries.filter (fun c => isDir entries c.name) ≠ []) :
    ∃ e l₁ l₂,
      find_latest_run_dir entries = .found e.name ∧
      entries.filter (fun c => isDir entries c.name) = l₁ ++ e :: l₂ ∧
      (∀ x ∈ l₁, mtimeOf entries x.name < mtimeOf entries e.name) ∧
      (∀ x ∈ entries.filter (fun c => isDir entries c.name),
        mtimeOf entries x.name ≤ mtimeOf entries e.name) := by
  have hs := statFollow_of_lookup_none h1 40
  cases hf : entries.filter (fun c => isDir entries c.name) with
  | nil => exact absurd hf h2
  | cons d ds =>
    obtain ⟨l₁, l₂, heq, hst, hle⟩ := maxByMtime_spec entries ds d
    refine ⟨maxByMtime entries d ds, l₁, l₂, ?_, ?_, hst, ?_⟩
    · simp [find_latest_run_dir, pathExists, hs, hf]
    · exact heq
    · exact hle

/-- C2 amended witness: root with a (mtime 100), b (mtime 300), c (mtime
300): the hypotheses hold and the amended theorem applies. -/
theorem find_latest_scan_first_max_witness :
    (lookup [⟨"a", .dir 100⟩, ⟨"b", .dir 300⟩, ⟨"c", .dir 300⟩] "latest" = none ∧
        [Entry.mk "a" (.dir 100), Entry.mk "b" (.dir 300), Entry.mk "c" (.dir 300)].filter
            (fun c =>
              isDir [Entry.mk "a" (.dir 100), Entry.mk "b" (.dir 300),
                Entry.mk "c" (.dir 300)] c.name) ≠ []) ∧
      ∃ e l₁ l₂,
        find_latest_run_dir [⟨"a", .dir 100⟩, ⟨"b", .dir 300⟩, ⟨"c", .dir 300⟩]
            = .found e.name ∧
        [Entry.mk "a" (.dir 100), Entry.mk "b" (.dir 300), Entry.mk "c" (.dir 300)].filter
            (fun c =>
              isDir [Entry.mk "a" (.dir 100), Entry.mk "b" (.dir 300),
                Entry.mk "c" (.dir 300)] c.name) = l₁ ++ e :: l₂ ∧
        (∀ x ∈ l₁,
          mtimeOf [Entry.mk "a" (.dir 100), Entry.mk "b" (.dir 300),
              Entry.mk "c" (.dir 300)] x.name
            < mtimeOf [Entry.mk "a" (.dir 100), Entry.mk "b" (.dir 300),
                Entry.mk "c" (.dir 300)] e.name) ∧
        (∀ x ∈ [Entry.mk "a" (.dir 100), Entry.mk "b" (.dir 300),
            Entry.mk "c" (.dir 300)].filter
              (fun c =>
                isDir [Entry.mk "a" (.dir 100), Entry.mk "b" (.dir 300),
                  Entry.mk "c" (.dir 300)] c.name),
          mtimeOf [Entry.mk "a" (.dir 100), Entry.mk "b" (.dir 300),
              Entry.mk "c" (.dir 300)] x.name
            ≤ mtimeOf [Entry.mk "a" (.dir 100), Entry.mk "b" (.dir 300),
                Entry.mk "c" (.dir 300)] e.name) :=
  ⟨⟨by decide, by decide⟩, find_latest_scan_first_max _ (by decide) (by decide)⟩

/-- C3 counterexample: with latest a link to middle, itself a link to the
directory target, the resolver follows two levels and returns target (not the
one-level result middle); and with latest a link cycle, it does not fail with
an unresolvable-latest error: it falls back to the scan and returns the
subdirectory a. -/
theorem find_latest_multi_level_and_cycle :
    find_latest_run_dir
        [⟨"latest", .symlink "middle"⟩, ⟨"middle", .symlink "target"⟩, ⟨"target", .dir 7⟩]
        = .found "target" ∧
      find_latest_run_dir [⟨"latest", .symlink "latest"⟩, ⟨"a", .dir 5⟩] = .found "a" :=
  ⟨by decide, by decide⟩

/-- C3 amended: when the latest entry does not stat (dangling link or link
cycle), the resolver never raises an unresolvable-latest error: it falls back
to the modification-time scan, failing with the no-run-directories error
exactly when there is no subdirectory, and otherwise returning the name of
one of the subdirectories. -/
theorem find_latest_fallback_on_unresolvable (entries : List Entry)
    (h : statFollow entries 40 "latest" = none) :
    (find_latest_run_dir entries = .noRunDirectories ↔
      entries.filter (fun c => isDir entries c.name) = []) ∧
    ∀ n, find_latest_run_dir entries = .found n →
      ∃ c ∈ entries.filter (fun c => isDir entries c.name), c.name = n := by
  have hpe : pathExists entries "latest" = false := by simp [pathExists, h]
  constructor
  · cases hf : entries.filter (fun c => isDir entries c.name) with
    | nil => simp [find_latest_run_dir, hpe, hf]
    | cons d ds => simp [find_latest_run_dir, hpe, hf]
  · intro n hn
    cases hf : entries.filter (fun c => isDir entries c.name) with
    | nil => simp [find_latest_run_dir, hpe, hf] at hn
    | cons d ds =>
      simp [find_latest_run_dir, hpe, hf] at hn
      refine ⟨maxByMtime entries d ds, ?_, hn⟩
      obtain ⟨l₁, l₂, heq, _, _⟩ := maxByMtime_spec entries ds d
      rw [heq]
      exact List.mem_append_right l₁ (List.mem_cons_self _ _)

/-- C3 amended witness: the latest entry is a link cycle; the fallback
characterisation applies. -/
theorem find_latest_fallback_on_unresolvable_witness :
    statFollow [⟨"latest", .symlink "latest"⟩, ⟨"a", .dir 5⟩] 40 "latest" = none ∧
      ((find_latest_run_dir [⟨"latest", .symlink "latest"⟩, ⟨"a", .dir 5⟩]
            = .noRunDirectories ↔
          [Entry.mk "latest" (.symlink "latest"), Entry.mk "a" (.dir 5)].filter
              (fun c =>
                isDir [Entry.mk "latest" (.symlink "latest"), Entry.mk "a" (.dir 5)] c.name)
            = []) ∧
        ∀ n,
          find_latest_run_dir [⟨"latest", .symlink "latest"⟩, ⟨"a", .dir 5⟩] = .found n →
            ∃ c ∈ [Entry.mk "latest" (.symlink "latest"), Entry.mk "a" (.dir 5)].filter
                (fun c =>
                  isDir [Entry.mk "latest" (.symlink "latest"), Entry.mk "a" (.dir 5)]
                    c.name),
              c.name = n) :=
  ⟨by decide, find_latest_fallback_on_unresolvable _ (by decide)⟩

/-! ## Evaluator invoker model

evaluate_with_evo (generate_odometry.py, lines 81-154) checks that the two
pose files exist in the run directory and then launches the three external
evaluator programs one after the other with subprocess.run(check=True),
which raises CalledProcessError on the first non-zero exit status.  The
model records which evaluator processes were invoked, in order, together
with the outcome; the run directory is the list of file names it holds, and
the exit status of each external program is a parameter. -/

inductive EvalKind where
  | absolute
  | relative
  | trajectory
  deriving DecidableEq, Repr

inductive EvalError where
  | missingPoseFiles
  | evaluationFailed (kind : EvalKind)
  deriving DecidableEq, Repr

/-- Ground-truth pose file name built from the sequence id (line 108). -/
def gtFileName (seq : String) : String := seq ++ "_gt_kitti.txt"

/-- Estimated pose file name built from the sequence id (line 109). -/
def estFileName (seq : String) : String := seq ++ "_poses_kitti.txt"

/-- evaluate_with_evo (lines 108-148): missing-file check, then the three
passes in the order absolute, relative, trajectory, each aborting the whole
call on a non-zero exit status. -/
def evaluate_with_evo (files : List String) (seq : String)
    (exitCode : EvalKind → Nat) : List EvalKind × Except EvalError Unit :=
  if gtFileName seq ∈ files ∧ estFileName seq ∈ files then
    if exitCode .absolute ≠ 0 then
      ([.absolute], .error (.evaluationFailed .absolute))
    else if exitCode .relative ≠ 0 then
      ([.absolute, .relative], .error (.evaluationFailed .relative))
    else if exitCode .trajectory ≠ 0 then
      ([.absolute, .relative, .trajectory], .error (.evaluationFailed .trajectory))
    else
      ([.absolute, .relative, .trajectory], .ok ())
  else
    ([], .error .missingPoseFiles)

/-- main (generate_odometry.py, lines 177-187): when either pose file is
missing from the run directory, main prints the sorted listing of the run
directory contents before calling evaluate_with_evo.  The value is the
listing produced, if any. -/
def main_missing_listing (files : List String) (seq : String) :
    Option (List String) :=
  if gtFileName seq ∈ files ∧ estFileName seq ∈ files then none
  else some (files.mergeSort (fun a b => decide (a ≤ b)))

/-- C5: with either pose file absent from the run directory,
evaluate_with_evo fails with the missing-pose-files error having invoked no
external evaluator process, and the main flow reports a listing holding
exactly the run directory's contents. -/
theorem evaluate_with_evo_missing_files (files : List String) (seq : String)
    (exitCode : EvalKind → Nat)
    (h : gtFileName seq ∉ files ∨ estFileName seq ∉ files) :
    evaluate_with_evo files seq exitCode = ([], .error .missingPoseFiles) ∧
      ∃ l, main_missing_listing files seq = some l ∧ l.Perm files := by
  have hc : ¬(gtFileName seq ∈ files ∧ estFileName seq ∈ files) := by
    intro hboth
    rcases h with h | h
    · exact h hboth.1
    · exact h hboth.2
  refine ⟨by simp [evaluate_with_evo, hc], ?_⟩
  refine ⟨files.mergeSort (fun a b => decide (a ≤ b)), ?_, List.mergeSort_perm files _⟩
  simp [main_missing_listing, hc]

/-- C5 witness: a run directory holding only the estimated pose file for
sequence 01; the ground-truth file is absent. -/
theorem evaluate_with_evo_missing_files_witness :
    (gtFileName "01" ∉ ["01_poses_kitti.txt"] ∨
        estFileName "01" ∉ ["01_poses_kitti.txt"]) ∧
      (evaluate_with_evo ["01_poses_kitti.txt"] "01" (fun _ => 0)
          = ([], .error .missingPoseFiles) ∧
        ∃ l, main_missing_listing ["01_poses_kitti.txt"] "01" = some l ∧
          l.Perm ["01_poses_kitti.txt"]) :=
  ⟨Or.inl (by decide),
    evaluate_with_evo_missing_files _ "01" (fun _ => 0) (Or.inl (by decide))⟩

/-- C6 counterexample: both pose files present and the absolute-error
evaluator exits with status 1; the call stops there, so the relative and
trajectory passes are never attempted, against the claim that one metric's
failure does not prevent attempting the others. -/
theorem evaluate_with_evo_stops_at_first_failure :
    evaluate_with_evo [gtFileName "00", estFileName "00"] "00"
        (fun k => match k with | .absolute => 1 | _ => 0)
      = ([.absolute], .error (.evaluationFailed .absolute)) ∧
      EvalKind.relative ∉ [EvalKind.absolute] ∧
      EvalKind.trajectory ∉ [EvalKind.absolute] :=
  ⟨rfl, by decide, by decide⟩

/-- C6 amended: the three passes run in the fixed order absolute, relative,
trajectory with fail-fast semantics: the first non-zero exit status raises
the corresponding evaluation failure at once and the later passes are not
attempted; errors are not aggregated. -/
theorem evaluate_with_evo_fail_fast (files : List String) (seq : String)
    (exitCode : EvalKind → Nat)
    (h : gtFileName seq ∈ files ∧ estFileName seq ∈ files) :
    (exitCode .absolute ≠ 0 →
      evaluate_with_evo files seq exitCode
        = ([.absolute], .error (.evaluationFailed .absolute))) ∧
    (exitCode .absolute = 0 → exitCode .relative ≠ 0 →
      evaluate_with_evo files seq exitCode
        = ([.absolute, .relative], .error (.evaluationFailed .relative))) ∧
    (exitCode .absolute = 0 → exitCode .relative = 0 → exitCode .trajectory ≠ 0 →
      evaluate_with_evo files seq exitCode
        = ([.absolute, .relative, .trajectory],
            .error (.evaluationFailed .trajectory))) ∧
    (exitCode .absolute = 0 → exitCode .relative = 0 → exitCode .trajectory = 0 →
      evaluate_with_evo files seq exitCode
        = ([.absolute, .relative, .trajectory], .ok ())) := by
  refine ⟨fun h1 => ?_, fun h1 h2 => ?_, fun h1 h2 h3 => ?_, fun h1 h2 h3 => ?_⟩
  · simp [evaluate_with_evo, h, h1]
  · simp [evaluate_with_evo, h, h1, h2]
  · simp [evaluate_with_evo, h, h1, h2, h3]
  · simp [evaluate_with_evo, h, h1, h2, h3]

/-- C6 amended witness: both pose files present, every evaluator exits 0. -/
theorem evaluate_with_evo_fail_fast_witness :
    (gtFileName "00" ∈ [gtFileName "00", estFileName "00"] ∧
        estFileName "00" ∈ [gtFileName "00", estFileName "00"]) ∧
      (((fun _ : EvalKind => 0) EvalKind.absolute ≠ 0 →
        evaluate_with_evo [gtFileName "00", estFileName "00"] "00" (fun _ => 0)
          = ([.absolute], .error (.evaluationFailed .absolute))) ∧
      ((fun _ : EvalKind => 0) EvalKind.absolute = 0 →
          (fun _ : EvalKind => 0) EvalKind.relative ≠ 0 →
        evaluate_with_evo [gtFileName "00", estFileName "00"] "00" (fun _ => 0)
          = ([.absolute, .relative], .error (.evaluationFailed .relative))) ∧
      ((fun _ : EvalKind => 0) EvalKind.absolute = 0 →
          (fun _ : EvalKind => 0) EvalKind.relative = 0 →
          (fun _ : EvalKind => 0) EvalKind.trajectory ≠ 0 →
        evaluate_with_evo [gtFileName "00", estFileName "00"] "00" (fun _ => 0)
          = ([.absolute, .relative, .trajectory],
              .error (.evaluationFailed .trajectory))) ∧
      ((fun _ : EvalKind => 0) EvalKind.absolute = 0 →
          (fun _ : EvalKind => 0) EvalKind.relative = 0 →
          (fun _ : EvalKind => 0) EvalKind.trajectory = 0 →
        evaluate_with_evo [gtFileName "00", estFileName "00"] "00" (fun _ => 0)
          = ([.absolute, .relative, .trajectory], .ok ()))) :=
  ⟨⟨by decide, by decide⟩,
    evaluate_with_evo_fail_fast _ "00" (fun _ => 0) ⟨by decide, by decide⟩⟩

/-! ## Pose file codec

load_kitti_poses (visuzlize.py, lines 12-17) reads the file with np.loadtxt,
reshapes the flattened data to (-1, 3, 4) and completes each block with the
fixed bottom row of np.eye(4).  np.loadtxt skips blank lines, fails when a
row's field count differs from the first row's, and flattens everything else;
reshape fails unless the total count of values is a multiple of twelve.  The
input is modelled as the list of lines, each line the list of its numeric
values; the ValueError raised by loadtxt or reshape is the malformed-file
failure. -/

inductive PoseLoadError where
  | malformedPoseFile
  deriving DecidableEq, Repr

/-- One group of twelve values turned into a 4x4 matrix: the three reshaped
rows and the fixed bottom row [0, 0, 0, 1] kept from np.eye(4). -/
def toPose (v : List ℚ) : List (List ℚ) :=
  [v.take 4, (v.drop 4).take 4, (v.drop 8).take 4, [0, 0, 0, 1]]

/-- Grouping of the flat value array into rows of twelve, as
reshape(-1, 3, 4) groups the flattened data of np.loadtxt. -/
def chunks12 (l : List ℚ) : List (List ℚ) :=
  if _h : l = [] then [] else l.take 12 :: chunks12 (l.drop 12)
termination_by l.length
decreasing_by
  simp only [List.length_drop]
  have hp : 0 < l.length := List.length_pos.mpr _h
  omega

/-- np.loadtxt's column check: every data row must have the field count of
the first row. -/
def uniformCols : List (List ℚ) → Bool
  | [] => true
  | l :: ls => ls.all (fun l2 => l2.length == l.length)

/-- load_kitti_poses (visuzlize.py, lines 12-17) over the token lines of the
file. -/
def load_kitti_poses (lines : List (List ℚ)) :
    Except PoseLoadError (List (List (List ℚ))) :=
  let ls := lines.filter (fun l => !l.isEmpty)
  if uniformCols ls then
    if ls.flatten.length % 12 = 0 then
      .ok ((chunks12 ls.flatten).map toPose)
    else
      .error .malformedPoseFile
  else
    .error .malformedPoseFile

theorem flatten_length_all12 (lines : List (List ℚ))
    (h : ∀ l ∈ lines, l.length = 12) :
    lines.flatten.length = 12 * lines.length := by
  induction lines with
  | nil => simp
  | cons l ls ih =>
    have h1 := h l (List.mem_cons_self l ls)
    have h2 := ih (fun x hx => h x (List.mem_cons_of_mem l hx))
    simp only [List.flatten_cons, List.length_append, List.length_cons, h1, h2]
    omega

theorem chunks12_append (l rest : List ℚ) (hl : l.length = 12) :
    chunks12 (l ++ rest) = l :: chunks12 rest := by
  have hne : l ++ rest ≠ [] := by
    intro hc
    rcases List.append_eq_nil.mp hc with ⟨h1, _⟩
    rw [h1] at hl
    simp at hl
  rw [chunks12, dif_neg hne]
  congr 1
  · rw [← hl]
    exact List.take_left l rest
  · congr 1
    rw [← hl]
    exact List.drop_left l rest

theorem chunks12_flatten (lines : List (List ℚ))
    (h : ∀ l ∈ lines, l.length = 12) :
    chunks12 lines.flatten = lines := by
  induction lines with
  | nil =>
    rw [List.flatten_nil, chunks12]
    simp
  | cons l ls ih =>
    rw [List.flatten_cons, chunks12_append l _ (h l (List.mem_cons_self l ls)),
      ih (fun x hx => h x (List.mem_cons_of_mem l hx))]

/-- C7: on a valid pose file whose every line holds exactly twelve values,
the codec returns exactly one 4x4 matrix per line, in file order: the line's
twelve values fill the first three rows left to right and the fourth row is
the fixed [0, 0, 0, 1]. -/
theorem load_kitti_poses_valid (lines : List (List ℚ))
    (h : ∀ l ∈ lines, l.length = 12) :
    load_kitti_poses lines
        = .ok (lines.map (fun l =>
            [l.take 4, (l.drop 4).take 4, (l.drop 8).take 4,
              ([0, 0, 0, 1] : List ℚ)])) ∧
      ∃ ps, load_kitti_poses lines = .ok ps ∧ ps.length = lines.length := by
  have hfil : lines.filter (fun l => !l.isEmpty) = lines := by
    rw [List.filter_eq_self]
    intro a ha
    cases a with
    | nil =>
      have h0 := h [] ha
      simp at h0
    | cons y ys => simp
  have huni : uniformCols lines = true := by
    cases lines with
    | nil => rfl
    | cons l ls =>
      simp only [uniformCols, List.all_eq_true, beq_iff_eq]
      intro x hx
      rw [h x (List.mem_cons_of_mem l hx), h l (List.mem_cons_self l ls)]
  have hmod : lines.flatten.length % 12 = 0 := by
    rw [flatten_length_all12 lines h]
    exact Nat.mul_mod_right 12 _
  have hch := chunks12_flatten lines h
  have hmod2 : (List.map List.length lines).sum % 12 = 0 := by
    rw [← List.length_flatten]
    exact hmod
  have hmain : load_kitti_poses lines = .ok (lines.map toPose) := by
    simp [load_kitti_poses, hfil, huni, hmod, hmod2, hch]
  exact ⟨hmain, _, hmain, by simp⟩

/-- C7 witness: a one-line file of twelve values. -/
theorem load_kitti_poses_valid_witness :
    (∀ l ∈ [[(1 : ℚ), 2, 3, 4, 5, 6, 7, 8, 9, 10, 11, 12]], l.length = 12) ∧
      (load_kitti_poses [[(1 : ℚ), 2, 3, 4, 5, 6, 7, 8, 9, 10, 11, 12]]
          = .ok ([[(1 : ℚ), 2, 3, 4, 5, 6, 7, 8, 9, 10, 11, 12]].map (fun l =>
              [l.take 4, (l.drop 4).take 4, (l.drop 8).take 4,
                ([0, 0, 0, 1] : List ℚ)])) ∧
        ∃ ps, load_kitti_poses [[(1 : ℚ), 2, 3, 4, 5, 6, 7, 8, 9, 10, 11, 12]]
            = .ok ps ∧
          ps.length = [[(1 : ℚ), 2, 3, 4, 5, 6, 7, 8, 9, 10, 11, 12]].length) :=
  ⟨by decide, load_kitti_poses_valid _ (by decide)⟩

/-- C8 counterexample: a file of two lines of six values each.  Both lines
fail to hold twelve values, yet the codec does not fail: loadtxt accepts the
uniform rows, the twelve flattened values reshape into a single block, and
one pose built from values of both lines is returned. -/
theorem load_kitti_poses_regroups_short_lines :
    load_kitti_poses [[(1 : ℚ), 2, 3, 4, 5, 6], [7, 8, 9, 10, 11, 12]]
        = .ok [[[(1 : ℚ), 2, 3, 4], [5, 6, 7, 8], [9, 10, 11, 12], [0, 0, 0, 1]]] ∧
      load_kitti_poses [[(1 : ℚ), 2, 3, 4, 5, 6], [7, 8, 9, 10, 11, 12]]
        ≠ .error .malformedPoseFile := by
  have h1 : load_kitti_poses [[(1 : ℚ), 2, 3, 4, 5, 6], [7, 8, 9, 10, 11, 12]]
      = .ok [[[(1 : ℚ), 2, 3, 4], [5, 6, 7, 8], [9, 10, 11, 12], [0, 0, 0, 1]]] := by
    simp [load_kitti_poses, uniformCols, chunks12, toPose]
  refine ⟨h1, ?_⟩
  rw [h1]
  simp

/-- C8 amended: the codec fails with the malformed-file error whenever the
total count of values over the non-blank lines is not a multiple of twelve;
in particular a file made of a single line of fewer than twelve values fails.
A file whose value total is a multiple of twelve can succeed even though
individual lines hold fewer than twelve values, the values being regrouped
across line boundaries. -/
theorem load_kitti_poses_bad_total (lines : List (List ℚ))
    (h : (lines.filter (fun l => !l.isEmpty)).flatten.length % 12 ≠ 0) :
    load_kitti_poses lines = .error .malformedPoseFile := by
  have h2 : ¬(List.map List.length (lines.filter (fun l => !l.isEmpty))).sum % 12 = 0 := by
    rw [← List.length_flatten]
    exact h
  by_cases hu : uniformCols (lines.filter (fun l => !l.isEmpty)) = true
  · simp [load_kitti_poses, hu, h, h2]
  · simp [load_kitti_poses, hu]

/-- C8 amended witness: a single line of three values. -/
theorem load_kitti_poses_bad_total_witness :
    ([[(1 : ℚ), 2, 3]].filter (fun l => !l.isEmpty)).flatten.length % 12 ≠ 0 ∧
      load_kitti_poses [[(1 : ℚ), 2, 3]] = .error .malformedPoseFile :=
  ⟨by decide, load_kitti_poses_bad_total _ (by decide)⟩

/-- C10: the codec on the empty file returns the empty pose sequence rather
than failing. -/
theorem load_kitti_poses_empty :
    load_kitti_poses ([] : List (List ℚ)) = .ok [] := by
  rw [load_kitti_poses]
  simp [uniformCols, chunks12]

end KissIcp
